import Mathlib

/-!
# Verification of the Gemini layout / raster core

Shallow embedding of the layout-constraint solver and the depth-buffered
raster of the Gemini library, together with proofs about the behaviour the
specification ascribes to them.

Conventions used throughout the embedding:
* C++ `double` values are modelled as `ℚ`; a `double` that may be the quiet
  NaN used by the code as an "unset" marker is modelled as `Option ℚ`
  (`none` = NaN).  All comparisons in the source are against non-NaN values
  or explicit `isnan` tests, so exact rational arithmetic is faithful.
* C++ `int` is modelled as `ℤ` (no arithmetic in the modelled code comes
  close to overflow).
* `std::vector` is a `List`; `reserve` changes only the capacity and is
  modelled as the identity on the contents, `resize`/`fill` are modelled
  with their value semantics.
* Pointers used purely for identity (`Locatable*`, `Canvas*`) are modelled
  as natural-number identifiers.
-/

namespace Gemini

/-! ## Bitmap.h / Bitmap.cpp -/

/-- Model of `gemini::core::color::PixelColor` (Bitmap.h). -/
structure PixelColor where
  red : ℕ
  green : ℕ
  blue : ℕ
  alpha : ℕ := 255
deriving DecidableEq, Repr

/-- Model of `gemini::core::ZOverwriteType` (Bitmap.h). -/
inductive ZOverwriteType where
  | Greater
  | GreaterOrEqual
deriving DecidableEq, Repr

/-- The external EasyBMP `BMP` raster: a width/height and a pixel store
addressed by `(x, y)`. `SetSize` initialises every pixel to white. -/
structure BMP where
  width : ℤ
  height : ℤ
  pixels : ℤ → ℤ → PixelColor

/-- Model of `BMP::SetSize(width, height)`: (re)create the raster, all pixels white. -/
def BMP.SetSize (_b : BMP) (w h : ℤ) : BMP :=
  { width := w, height := h, pixels := fun _ _ => ⟨255, 255, 255, 255⟩ }

/-- Model of `BMP::SetPixel(x, y, color)`: point update of the pixel store. -/
def BMP.SetPixel (b : BMP) (x y : ℤ) (c : PixelColor) : BMP :=
  { b with pixels := fun x' y' => if x' = x ∧ y' = y then c else b.pixels x' y' }

/-- State of `gemini::core::Bitmap::Impl` together with the `EasyBMPImpl`
fields (`zarray_`, `bitmap_`); Bitmap.h lines 97–181. -/
structure BitmapImpl where
  width : ℤ := 0
  height : ℤ := 0
  pxlow : ℤ := 0
  pxhi : ℤ := 0
  pylow : ℤ := 0
  pyhi : ℤ := 0
  restrict_region : Bool := false
  overwrite_type : ZOverwriteType := ZOverwriteType.GreaterOrEqual
  zarray : List (Option ℚ) := []
  bitmap : BMP

/-- Model of `std::vector::reserve`: affects capacity only, contents unchanged. -/
def vectorReserve (v : List (Option ℚ)) (_capacity : ℤ) : List (Option ℚ) := v

/-- Model of `std::fill(v.begin(), v.end(), value)`: overwrite every *existing*
element (an empty vector is left empty). -/
def stdFill (v : List (Option ℚ)) (value : Option ℚ) : List (Option ℚ) :=
  v.map fun _ => value

/-- Model of `std::vector::resize(n)` for `std::vector<double>`: keep the first `n`
elements, value-initialise (0.0) any new ones. -/
def vectorResize (v : List (Option ℚ)) (n : ℕ) : List (Option ℚ) :=
  v.take n ++ List.replicate (n - v.length) (some 0)

/-- The `EasyBMPImpl(int width, int height)` constructor (Bitmap.h 160–165):
delegates to `Impl(width, height)` (setting `width_`, `height_`, `pxhi_`,
`pyhi_`), sizes the BMP, then `reserve`s the z-array and `fill`s its
(empty) `begin()..end()` range with NaN. -/
def EasyBMPImpl.ctor (width height : ℤ) : BitmapImpl :=
  { width := width
    height := height
    pxhi := width
    pyhi := height
    bitmap := BMP.SetSize { width := 0, height := 0, pixels := fun _ _ => ⟨255, 255, 255, 255⟩ } width height
    zarray := stdFill (vectorReserve [] (width * height)) none }

/-- Model of `EasyBMPImpl::setSize` (Bitmap.cpp 82–87): resize the BMP and the
z-array and fill the z-array with NaN.  (Note: `width_`/`height_` of the
base class are *not* updated here or in `Bitmap::Impl::SetSize`.) -/
def EasyBMPImpl.setSize (s : BitmapImpl) (width height : ℤ) : BitmapImpl :=
  { s with
    bitmap := s.bitmap.SetSize width height
    zarray := stdFill (vectorResize s.zarray (width * height).toNat) none }

/-- Model of `Bitmap::Impl::SetSize` (Bitmap.cpp 73–76): reset the permitted region
to the full new size, then call the virtual `setSize`. -/
def BitmapImpl.SetSize (s : BitmapImpl) (width height : ℤ) : BitmapImpl :=
  EasyBMPImpl.setSize { s with pxlow := 0, pxhi := width, pylow := 0, pyhi := height } width height

/-- Model of `Bitmap::Impl::SetPermittedRegion` (Bitmap.cpp 78–80), exactly as
written in the source:
`pxlow_ = std::max(0, xlow), pxhi_ = std::min(width_, xhi), pylow_ = std::min(0, ylow), pyhi_ = std::min(height_, yhi);`. -/
def BitmapImpl.SetPermittedRegion (s : BitmapImpl) (xlow xhi ylow yhi : ℤ) : BitmapImpl :=
  { s with
    pxlow := max 0 xlow
    pxhi := min s.width xhi
    pylow := min 0 ylow
    pyhi := min s.height yhi }

/-- The in-permitted-region test of `Bitmap::Impl::SetPixel`
(Bitmap.cpp 68): `pxlow_ <= x && x < pxhi_ && pylow_ <= y && y < pyhi_`. -/
def BitmapImpl.permittedTest (s : BitmapImpl) (x y : ℤ) : Bool :=
  s.pxlow ≤ x && x < s.pxhi && s.pylow ≤ y && y < s.pyhi

/-- The z-array cell `zarray_[y * width_ + x]` read by
`EasyBMPImpl::setPixel`; `none` when the index is out of the vector's
range (an out-of-range access is undefined behaviour in the source, so
theorems about `setPixel` assume the index is in range). -/
def BitmapImpl.zAt (s : BitmapImpl) (x y : ℤ) : Option (Option ℚ) :=
  if h : 0 ≤ y * s.width + x ∧ (y * s.width + x).toNat < s.zarray.length then
    some (s.zarray.get ⟨(y * s.width + x).toNat, h.2⟩)
  else
    none

/-- The overwrite test of `EasyBMPImpl::setPixel` (Bitmap.cpp 106):
`std::isnan(zvalue) || zvalue < z || (zvalue == z && overwrite_type_ == ZOverwriteType::GreaterOrEqual)`
(all `<`/`==` comparisons against NaN are false in IEEE arithmetic, which
the `Option` pattern match reproduces). -/
def zOverwriteTest (zvalue : Option ℚ) (z : ℚ) (ot : ZOverwriteType) : Bool :=
  match zvalue with
  | none => true
  | some zv => decide (zv < z) || (decide (zv = z) && decide (ot = ZOverwriteType.GreaterOrEqual))

/-- Model of `EasyBMPImpl::setPixel` (Bitmap.cpp 103–110): look up the stored depth;
overwrite pixel and depth when the stored depth is NaN, or strictly less
than `z`, or equal to `z` with overwrite type `GreaterOrEqual`.  The pixel
itself is written into the BMP at `(x, height_ - y - 1)`. -/
def EasyBMPImpl.setPixel (s : BitmapImpl) (x y : ℤ) (color : PixelColor) (z : ℚ) : BitmapImpl :=
  let zvalue := (s.zAt x y).getD none
  if zOverwriteTest zvalue z s.overwrite_type then
    { s with
      bitmap := s.bitmap.SetPixel x (s.height - y - 1) color
      zarray := s.zarray.set (y * s.width + x).toNat (some z) }
  else s

/-- Model of `Bitmap::Impl::SetPixel` (Bitmap.cpp 67–71): write through to
`setPixel` only when `(x, y)` passes the permitted-region test. -/
def BitmapImpl.SetPixel (s : BitmapImpl) (x y : ℤ) (color : PixelColor) (z : ℚ) : BitmapImpl :=
  if s.permittedTest x y then EasyBMPImpl.setPixel s x y color z else s

/-! ## Image.h: parts, dimensions, fixes, the locatable registry -/

/-- Model of `gemini::core::CanvasPart` (Image.h 23–25). -/
inductive CanvasPart where
  | Left
  | Right
  | Bottom
  | Top
  | CenterX
  | CenterY
deriving DecidableEq, Repr

/-- Model of `gemini::core::CanvasDimension` (Image.h 27–29). -/
inductive CanvasDimension where
  | X
  | Y
deriving DecidableEq, Repr

/-- Model of `gemini::CanvasLocation` (Location.h): an integer pixel rectangle. -/
structure CanvasLocation where
  left : ℤ := 0
  bottom : ℤ := 0
  right : ℤ := 0
  top : ℤ := 0
deriving DecidableEq, Repr

/-- Model of `IndexedLocatables` (Image.h 32–62): the ordered, de-duplicated list of
registered locatables.  Locatable identity (a `Locatable*`) is a `ℕ` id. -/
structure IndexedLocatables where
  objs : List ℕ := []
deriving DecidableEq, Repr

/-- Model of `IndexedLocatables::Add` (Image.h 40–47): append only if not already
contained; return the new index (`objs_.size() - 1` after the push) or
`none` when the locatable is already present. -/
def IndexedLocatables.Add (s : IndexedLocatables) (loc : ℕ) : IndexedLocatables × Option ℕ :=
  if loc ∈ s.objs then (s, none)
  else ({ objs := s.objs ++ [loc] }, some s.objs.length)

/-- Model of `IndexedLocatables::GetIndex` (Image.h 53–56):
`std::distance(objs_.begin(), std::find(...))` — the index of the first
occurrence, or `objs_.size()` when the locatable was never registered
(no error is raised for an unregistered locatable). -/
def IndexedLocatables.GetIndex (s : IndexedLocatables) (p : ℕ) : ℕ :=
  s.objs.indexOf p

/-- The closed set of `Fix` subclasses (Image.h 137–318), with locatables
referenced by identity. -/
inductive FixT where
  | relationship (canvas1 canvas2 : ℕ) (part1 part2 : CanvasPart) (pixels_diff : ℚ)
  | dimensions (locatable : ℕ) (dimension : CanvasDimension) (extent : ℚ)
  | scale (canvas1 canvas2 : ℕ) (part1 : CanvasPart) (dimension : CanvasDimension) (lambda : ℚ)
  | relativeSize (canvas1 canvas2 : ℕ) (dimension1 dimension2 : CanvasDimension) (scale : ℚ)
deriving DecidableEq, Repr

/-- The coefficient matrix, a total function on (row, column). -/
def Mat := ℕ → ℕ → ℚ

/-- The constants column vector. -/
def Vec := ℕ → ℚ

/-- Model of `relationships(r, c) += v` (Eigen coefficient update). -/
def addAt (m : Mat) (r c : ℕ) (v : ℚ) : Mat :=
  fun r' c' => if r' = r ∧ c' = c then m r' c' + v else m r' c'

/-- Model of `relationships(r, c) = v` (Eigen coefficient assignment). -/
def setAt (m : Mat) (r c : ℕ) (v : ℚ) : Mat :=
  fun r' c' => if r' = r ∧ c' = c then v else m r' c'

/-- Model of `constants(r, 0) = v`. -/
def setC (b : Vec) (r : ℕ) (v : ℚ) : Vec :=
  fun r' => if r' = r then v else b r'

/-- Model of `Fix::AddToMatrixForCanvasPart` (Image.h 84–124): add `value` into the
column of `part` inside the 4-column block of locatable `li`
(Left, Bottom, Right, Top at offsets 0, 1, 2, 3); `CenterX`/`CenterY`
add `0.5 * value` to both the Left/Right (resp. Bottom/Top) columns. -/
def AddToMatrixForCanvasPart (index : ℕ) (value : ℚ) (part : CanvasPart) (li : ℕ) (m : Mat) : Mat :=
  match part with
  | CanvasPart.Left => addAt m index (4 * li + 0) value
  | CanvasPart.Right => addAt m index (4 * li + 2) value
  | CanvasPart.Bottom => addAt m index (4 * li + 1) value
  | CanvasPart.Top => addAt m index (4 * li + 3) value
  | CanvasPart.CenterX => addAt (addAt m index (4 * li + 0) (value / 2)) index (4 * li + 2) (value / 2)
  | CanvasPart.CenterY => addAt (addAt m index (4 * li + 1) (value / 2)) index (4 * li + 3) (value / 2)

/-- Model of `Fix::Create` for each of the four subclasses (Image.h 150–157,
181–197, 231–248, 281–308): write the constraint's row `index` into the
matrix and constants. -/
def FixT.create (f : FixT) (index : ℕ) (m : Mat) (b : Vec) (locs : IndexedLocatables) : Mat × Vec :=
  match f with
  | FixT.relationship c1 c2 p1 p2 diff =>
    let idx1 := locs.GetIndex c1
    let idx2 := locs.GetIndex c2
    let m := AddToMatrixForCanvasPart index (-1) p1 idx1 m
    let m := AddToMatrixForCanvasPart index 1 p2 idx2 m
    (m, setC b index diff)
  | FixT.dimensions loc dim extent =>
    let lidx := locs.GetIndex loc
    let m :=
      match dim with
      | CanvasDimension.X =>
        AddToMatrixForCanvasPart index 1 CanvasPart.Right lidx
          (AddToMatrixForCanvasPart index (-1) CanvasPart.Left lidx m)
      | CanvasDimension.Y =>
        AddToMatrixForCanvasPart index 1 CanvasPart.Top lidx
          (AddToMatrixForCanvasPart index (-1) CanvasPart.Bottom lidx m)
    (m, setC b index extent)
  | FixT.scale c1 c2 p1 dim lambda =>
    let idx1 := locs.GetIndex c1
    let idx2 := locs.GetIndex c2
    let m := AddToMatrixForCanvasPart index 1 p1 idx1 m
    let m :=
      match dim with
      | CanvasDimension.X =>
        AddToMatrixForCanvasPart index (-lambda) CanvasPart.Right idx2
          (AddToMatrixForCanvasPart index (-(1 - lambda)) CanvasPart.Left idx2 m)
      | CanvasDimension.Y =>
        AddToMatrixForCanvasPart index (-lambda) CanvasPart.Top idx2
          (AddToMatrixForCanvasPart index (-(1 - lambda)) CanvasPart.Bottom idx2 m)
    (m, b)
  | FixT.relativeSize c1 c2 d1 d2 sc =>
    let idx1 := locs.GetIndex c1
    let idx2 := locs.GetIndex c2
    let m :=
      match d1 with
      | CanvasDimension.X =>
        AddToMatrixForCanvasPart index (-1) CanvasPart.Left idx1
          (AddToMatrixForCanvasPart index 1 CanvasPart.Right idx1 m)
      | CanvasDimension.Y =>
        AddToMatrixForCanvasPart index (-1) CanvasPart.Bottom idx1
          (AddToMatrixForCanvasPart index 1 CanvasPart.Top idx1 m)
    let m :=
      match d2 with
      | CanvasDimension.X =>
        AddToMatrixForCanvasPart index sc CanvasPart.Left idx2
          (AddToMatrixForCanvasPart index (-sc) CanvasPart.Right idx2 m)
      | CanvasDimension.Y =>
        AddToMatrixForCanvasPart index sc CanvasPart.Bottom idx2
          (AddToMatrixForCanvasPart index (-sc) CanvasPart.Top idx2 m)
    (m, b)

/-! ## Image.cpp: the image state and `CalculateCanvasLocations` -/

/-- State of `Image::Impl` (Image.h 415–519) restricted to the fields the
layout solver touches.  Canvas identity (a `Canvas*`) is a `ℕ` id; the
master canvas is registered first by the constructor, so in states
produced by the constructor `master = 0`, `canvases = [0]`,
`locatables.objs = [0]`.  `locWidth`/`locHeight` model the virtual
`Locatable::GetWidth`/`GetHeight` of each registered locatable. -/
structure ImageState where
  width : ℤ := 100
  height : ℤ := 100
  master : ℕ := 0
  canvases : List ℕ := [0]
  locatables : IndexedLocatables := { objs := [0] }
  locWidth : ℕ → Option ℚ := fun _ => none
  locHeight : ℕ → Option ℚ := fun _ => none
  fixes : List FixT := []
  needs_calculate : Bool := false
  shapesOf : ℕ → ℕ := fun _ => 0

/-- Model of `Image::Impl::AddFix` (Image.cpp 63–66): push the fix; nothing else
(in particular `needs_calculate_` is not touched). -/
def ImageState.AddFix (img : ImageState) (f : FixT) : ImageState :=
  { img with fixes := img.fixes ++ [f] }

/-- Model of `Image::Impl::ClearRelationships` (Image.cpp 68–70): clear the fixes;
nothing else (`needs_calculate_` is not touched). -/
def ImageState.ClearRelationships (img : ImageState) : ImageState :=
  { img with fixes := [] }

/-- Model of `Image::Impl::Relation_Fix` (Image.cpp 29–36): construct the
`FixRelationship` and `AddFix` it — no check that either locatable is
registered. -/
def ImageState.Relation_Fix (img : ImageState) (canvas1 : ℕ) (part1 : CanvasPart)
    (canvas2 : ℕ) (part2 : CanvasPart) (pixels_diff : ℚ) : ImageState × FixT :=
  let f := FixT.relationship canvas1 canvas2 part1 part2 pixels_diff
  (img.AddFix f, f)

/-- Model of `Image::Impl::Scale_Fix` (Image.cpp 38–45). -/
def ImageState.Scale_Fix (img : ImageState) (canvas1 : ℕ) (part1 : CanvasPart)
    (canvas2 : ℕ) (dimension : CanvasDimension) (lambda : ℚ) : ImageState × FixT :=
  let f := FixT.scale canvas1 canvas2 part1 dimension lambda
  (img.AddFix f, f)

/-- Model of `Image::Impl::Dimensions_Fix` (Image.cpp 47–52). -/
def ImageState.Dimensions_Fix (img : ImageState) (canvas : ℕ)
    (dim : CanvasDimension) (extent : ℚ) : ImageState × FixT :=
  let f := FixT.dimensions canvas dim extent
  (img.AddFix f, f)

/-- Model of `Image::Impl::RelativeSize_Fix` (Image.cpp 54–61). -/
def ImageState.RelativeSize_Fix (img : ImageState) (canvas1 : ℕ) (dimension1 : CanvasDimension)
    (canvas2 : ℕ) (dimension2 : CanvasDimension) (scale : ℚ) : ImageState × FixT :=
  let f := FixT.relativeSize canvas1 canvas2 dimension1 dimension2 scale
  (img.AddFix f, f)

/-- Model of `Image::Impl::RegisterLocatable` (Image.cpp 91–93). -/
def ImageState.RegisterLocatable (img : ImageState) (loc : ℕ) : ImageState × Option ℕ :=
  let (locs, idx) := img.locatables.Add loc
  ({ img with locatables := locs }, idx)

/-- Model of `Canvas::AddShape` (Canvas.cpp 610–613): push the shape onto the
canvas and set `image_->needs_calculate_ = true`.  (Shapes are counted
per canvas; their identity is irrelevant to the solver.) -/
def ImageState.AddShape (img : ImageState) (canvas : ℕ) : ImageState :=
  { img with
    shapesOf := fun c => if c = canvas then img.shapesOf c + 1 else img.shapesOf c
    needs_calculate := true }

/-- The `additional_fixes` count of `CalculateCanvasLocations`
(Image.cpp 126–131): one per present intrinsic width and height over all
registered locatables. -/
def additionalFixes (img : ImageState) : ℕ :=
  img.locatables.objs.foldl
    (fun n loc =>
      let n := if (img.locWidth loc).isSome then n + 1 else n
      if (img.locHeight loc).isSome then n + 1 else n)
    0

/-- Model of `dimensionality` (Image.cpp 134): the row count of the system. -/
def dimensionality (img : ImageState) : ℕ :=
  4 + additionalFixes img + img.fixes.length

/-- Model of `num_columns` (Image.cpp 136): four columns per registered locatable. -/
def numColumns (img : ImageState) : ℕ :=
  4 * img.locatables.objs.length

/-- The implicit-dimension loop of `CalculateCanvasLocations`
(Image.cpp 152–167): for each locatable in registration order, synthesize
a `FixDimensions` row for a present intrinsic width and then for a present
intrinsic height, at rows `4 + count` for a running `count`. -/
def applyImplicitFixes (img : ImageState) : List ℕ → Mat → Vec → ℕ → Mat × Vec × ℕ
  | [], m, b, count => (m, b, count)
  | loc :: rest, m, b, count =>
    let (m, b, count) :=
      match img.locWidth loc with
      | some w =>
        let mb := (FixT.dimensions loc CanvasDimension.X w).create (4 + count) m b img.locatables
        (mb.1, mb.2, count + 1)
      | none => (m, b, count)
    let (m, b, count) :=
      match img.locHeight loc with
      | some h =>
        let mb := (FixT.dimensions loc CanvasDimension.Y h).create (4 + count) m b img.locatables
        (mb.1, mb.2, count + 1)
      | none => (m, b, count)
    applyImplicitFixes img rest m b count

/-- The explicit-fix loop of `CalculateCanvasLocations` (Image.cpp
169–171): `fixes_[i]->Create(4 + additional_fixes + i, ...)`, i.e. the
fixes occupy consecutive rows starting at `row`. -/
def applyFixList : List FixT → ℕ → Mat → Vec → IndexedLocatables → Mat × Vec
  | [], _, m, b, _ => (m, b)
  | f :: rest, row, m, b, locs =>
    let mb := f.create row m b locs
    applyFixList rest (row + 1) mb.1 mb.2 locs

/-- Assembly of the linear system by `CalculateCanvasLocations`
(Image.cpp 137–171): zero matrix and constants; the four master-pinning
rows 0–3 (`Left = 0`, `Bottom = 0`, `Right = width`, `Top = height`);
the implicitly generated dimension rows; then the explicit fixes. -/
def buildSystem (img : ImageState) : Mat × Vec :=
  let m : Mat := fun _ _ => 0
  let b : Vec := fun _ => 0
  let m := setAt m 0 0 1
  let m := setAt m 1 1 1
  let m := setAt m 2 2 1
  let m := setAt m 3 3 1
  let b := setC b 0 0
  let b := setC b 1 0
  let b := setC b 2 (img.width : ℚ)
  let b := setC b 3 (img.height : ℚ)
  let mbc := applyImplicitFixes img img.locatables.objs m b 0
  applyFixList img.fixes (4 + additionalFixes img) mbc.1 mbc.2.1 img.locatables

/-- Model of `static_cast<int>` applied to a solved real: truncation toward zero. -/
def truncToInt (q : ℚ) : ℤ :=
  if 0 ≤ q then ⌊q⌋ else ⌈q⌉

/-- Model of `canvas_locations_` is a `std::map<const Canvas*, CanvasLocation>`,
modelled as an association list over canvas ids. -/
def LocMap := List (ℕ × CanvasLocation)

/-- Model of `canvas_locations_[c] = v`: replace the existing entry or insert. -/
def locSet (ls : LocMap) (c : ℕ) (v : CanvasLocation) : LocMap :=
  match ls with
  | [] => [(c, v)]
  | (c', v') :: rest => if c' = c then (c, v) :: rest else (c', v') :: locSet rest c v

/-- Reading `canvas_locations_[c]` (`operator[]` value-initialises a
missing entry, so a missing key reads as the all-zero rectangle). -/
def locGet (ls : LocMap) (c : ℕ) : CanvasLocation :=
  match ls with
  | [] => {}
  | (c', v') :: rest => if c' = c then v' else locGet rest c

/-- The entries created for each canvas at `RegisterCanvas`
(Image.cpp 309: `canvas_locations_[canvas.get()];`). -/
def initialLocations (img : ImageState) : LocMap :=
  img.canvases.foldl (fun ls c => locSet ls c {}) []

/-- Rows `4i .. 4i+3` of the solution vector, truncated to an integer
rectangle (Image.cpp 271–278). -/
def canvasLocOfSolution (x : Vec) (i : ℕ) : CanvasLocation :=
  { left := truncToInt (x (4 * i + 0))
    bottom := truncToInt (x (4 * i + 1))
    right := truncToInt (x (4 * i + 2))
    top := truncToInt (x (4 * i + 3)) }

/-- The assignment loop of `CalculateCanvasLocations` (Image.cpp
271–283): for `i` in `0 .. num_columns/4`, store the truncated rectangle
under `canvases_[i]` (the source indexes `canvases_` by locatable index;
an out-of-range access there is UB, modelled with `getD`). -/
def assignLocations (img : ImageState) (x : Vec) (ls : LocMap) : LocMap :=
  (List.range (numColumns img / 4)).foldl
    (fun ls i => locSet ls (img.canvases.getD i 0) (canvasLocOfSolution x i)) ls

/-- Model of `canvas_locations_` as left by a full (non-early-return) run of
`CalculateCanvasLocations` with solver output
`x = solver relationships constants`. -/
def finalLocations (solver : Mat → Vec → Vec) (img : ImageState) : LocMap :=
  let mb := buildSystem img
  let x := solver mb.1 mb.2
  assignLocations img x
    (locSet (initialLocations img) img.master
      { left := 0, bottom := 0, right := img.width, top := img.height })

/-- Model of `Image::Impl::CalculateCanvasLocations` (Image.cpp 115–288).  The
pin of the master entry; the early return when there are no fixes (error
if more than one canvas); system assembly; the LU solve — Eigen's
`fullPivLu().solve` accepts any (also non-square) system and never
throws, so it is modelled as a caller-supplied total function `solver`;
the truncation/assignment loop; and the final `GEMINI_ASSERT` that the
master canvas ended up at `(0, 0, width, height)` (a failed assert
throws).  The console diagnostics (constraint-satisfaction report and
under-constraint probing, Image.cpp 182–269) have no effect on the
resulting state and are not modelled. -/
def CalculateCanvasLocations (solver : Mat → Vec → Vec) (img : ImageState) :
    Except String LocMap :=
  let ls := locSet (initialLocations img) img.master
    { left := 0, bottom := 0, right := img.width, top := img.height }
  if img.fixes = [] then
    if img.canvases.length = 1 then Except.ok ls
    else Except.error "no relationships, but there are multiple canvases"
  else
    let lsF := finalLocations solver img
    if locGet lsF img.master = { left := 0, bottom := 0, right := img.width, top := img.height } then
      Except.ok lsF
    else
      Except.error "master canvas positioned incorrectly"

/-! ## Image.cpp: logical coordinate inference -/

/-- Model of `gemini::core::CoordinateDescription` (Image.h 15–21); each bound is
a `double` defaulting to quiet NaN, modelled as `Option ℚ`. -/
structure CoordinateDescription where
  has_coordinates : Bool := false
  left : Option ℚ := none
  bottom : Option ℚ := none
  right : Option ℚ := none
  top : Option ℚ := none
deriving DecidableEq, Repr

/-- A shape's logical bounding box (`CoordinateBoundingBox`, Location.h);
any field may be NaN. -/
structure BoundingBox where
  minX : Option ℚ := none
  maxX : Option ℚ := none
  minY : Option ℚ := none
  maxY : Option ℚ := none
deriving DecidableEq, Repr

/-- One running-minimum step of `getMinMaxCoordinates` (Image.cpp
333–335): `if (!isnan(v) && (isnan(acc) || v < acc)) acc = v;`. -/
def stepMin (acc v : Option ℚ) : Option ℚ :=
  match v with
  | none => acc
  | some x =>
    match acc with
    | none => some x
    | some a => if x < a then some x else some a

/-- One running-maximum step of `getMinMaxCoordinates` (Image.cpp
336–338): `if (!isnan(v) && (isnan(acc) || acc < v)) acc = v;`. -/
def stepMax (acc v : Option ℚ) : Option ℚ :=
  match v with
  | none => acc
  | some x =>
    match acc with
    | none => some x
    | some a => if a < x then some x else some a

/-- The four running extremes of `getMinMaxCoordinates`. -/
structure MinMaxCoords where
  minX : Option ℚ := none
  maxX : Option ℚ := none
  minY : Option ℚ := none
  maxY : Option ℚ := none
deriving DecidableEq, Repr

/-- The per-shape fold step of `getMinMaxCoordinates` (Image.cpp 330–345). -/
def mmStep (acc : MinMaxCoords) (bb : BoundingBox) : MinMaxCoords :=
  { minX := stepMin acc.minX bb.minX
    maxX := stepMax acc.maxX bb.maxX
    minY := stepMin acc.minY bb.minY
    maxY := stepMax acc.maxY bb.maxY }

/-- Model of `Image::Impl::getMinMaxCoordinates` (Image.cpp 324–348): fold the
shapes' bounding boxes into running min/max per axis, starting from
all-NaN. -/
def getMinMaxCoordinates (shapes : List BoundingBox) : MinMaxCoords :=
  shapes.foldl mmStep {}

/-- Model of `Image::Impl::describeCoordinates` (Image.cpp 350–412) with
`eps = default_coordinate_epsilon`.  Runs only when the running min of x
or of y is non-NaN; then, for each of the four bounds that is not
explicitly set, writes the value the corresponding branch chain computes
(each chain tests `isnan(min_coordinate_*)` first and then
`min_coordinate_* == max_coordinate_*`; an IEEE `==` against NaN is
false). -/
def describeCoordinates (eps : ℚ) (cs : CoordinateDescription) (mm : MinMaxCoords) :
    CoordinateDescription :=
  if mm.minX.isSome || mm.minY.isSome then
    let d := { cs with has_coordinates := true }
    let d :=
      if cs.left = none then
        { d with left :=
            match mm.minX with
            | none => some (-eps)
            | some mnx => if mm.maxX = some mnx then some (mnx - eps) else some mnx }
      else d
    let d :=
      if cs.right = none then
        { d with right :=
            match mm.minX with
            | none => some eps
            | some mnx => if mm.maxX = some mnx then some (mnx + eps) else mm.maxX }
      else d
    let d :=
      if cs.bottom = none then
        { d with bottom :=
            match mm.minY with
            | none => some (-eps)
            | some mny => if mm.maxY = some mny then some (mny - eps) else some mny }
      else d
    let d :=
      if cs.top = none then
        { d with top :=
            match mm.minY with
            | none => some eps
            | some mny => if mm.maxY = some mny then some (mny + eps) else mm.maxY }
      else d
    d
  else cs

/-- The source's `default_coordinate_epsilon` (Image.h 507): `0.0001`. -/
def default_coordinate_epsilon : ℚ := 1 / 10000

/-! ## Theorems

One theorem (plus witness / counterexample where required) per claim of
the specification review, interleaved with shared helper lemmas. -/

/-! ### C8: the locatable registry -/

/-- C8: `RegisterLocatable` returns the fresh index `objs_.size()` (one
past every existing index) for an unregistered locatable, appends it
(leaving the index of every previously registered locatable unchanged),
returns "already present" (`none`) without any mutation for a duplicate,
and is therefore idempotent: registering the same locatable twice is the
same as registering it once. -/
theorem registerLocatable_fresh_and_idempotent (s : IndexedLocatables) (loc : ℕ) :
    (loc ∉ s.objs →
      s.Add loc = ({ objs := s.objs ++ [loc] }, some s.objs.length) ∧
      (∀ p ∈ s.objs, (s.Add loc).1.GetIndex p = s.GetIndex p) ∧
      (s.Add loc).1.GetIndex loc = s.objs.length) ∧
    (loc ∈ s.objs → s.Add loc = (s, none)) ∧
    ((s.Add loc).1.Add loc = ((s.Add loc).1, none)) := by
  refine ⟨fun hnot => ?_, fun hmem => ?_, ?_⟩
  · refine ⟨by simp [IndexedLocatables.Add, hnot], fun p hp => ?_, ?_⟩
    · simp only [IndexedLocatables.Add, if_neg hnot, IndexedLocatables.GetIndex]
      exact List.indexOf_append_of_mem hp
    · simp only [IndexedLocatables.Add, if_neg hnot, IndexedLocatables.GetIndex]
      rw [List.indexOf_append_of_not_mem hnot]
      simp [List.indexOf_cons_self]
  · simp [IndexedLocatables.Add, hmem]
  · by_cases hmem : loc ∈ s.objs
    · simp [IndexedLocatables.Add, hmem]
    · simp [IndexedLocatables.Add, hmem]

/-- C8 witness: concrete instantiation at the one-element registry
`[0]` and the fresh locatable `1`. -/
theorem registerLocatable_fresh_and_idempotent_spot :
    (({ objs := [0] } : IndexedLocatables).Add 1
        = ({ objs := [0, 1] }, some 1) ∧
      (∀ p ∈ [0], (({ objs := [0] } : IndexedLocatables).Add 1).1.GetIndex p
        = ({ objs := [0] } : IndexedLocatables).GetIndex p) ∧
      (({ objs := [0] } : IndexedLocatables).Add 1).1.GetIndex 1 = 1) ∧
    ((({ objs := [0] } : IndexedLocatables).Add 1).1.Add 1
        = ((({ objs := [0] } : IndexedLocatables).Add 1).1, none)) := by
  have h := registerLocatable_fresh_and_idempotent { objs := [0] } 1
  exact ⟨h.1 (by decide), h.2.2⟩

/-! ### C5: the needs-recompute flag -/

/-- C5 counterexample: on a freshly constructed image (whose
`needs_calculate_` member initialises to `false`), `AddFix` leaves the
needs-recompute flag `false`, contradicting the claim that every
mutation — adding a shape, adding any Fix, clearing all Fixes — sets it
to `true`. -/
theorem addFix_leaves_flag_false :
    (ImageState.AddFix {} (FixT.dimensions 0 CanvasDimension.X 50)).needs_calculate = false :=
  rfl

/-- C5 amended: only `Canvas::AddShape` sets the image's needs-recompute
flag to `true`; `AddFix` and `ClearRelationships` leave the flag exactly
as it was (and it is initialised `false`), so a fix mutation after a
render does not by itself trigger a re-solve. -/
theorem mutation_flag_behaviour (img : ImageState) (c : ℕ) (f : FixT) :
    ((img.AddShape c).needs_calculate = true) ∧
    ((img.AddFix f).needs_calculate = img.needs_calculate) ∧
    ((img.ClearRelationships).needs_calculate = img.needs_calculate) ∧
    (({} : ImageState).needs_calculate = false) :=
  ⟨rfl, rfl, rfl, rfl⟩

/-! ### C9: fix-creating calls and unregistered regions -/

/-- C9 counterexample: calling `Relation_Fix` with the locatable id `1`,
which is not registered in the default image (whose registry is just the
master, id `0`), does not fail: the fix is accepted and appended, so the
error is not raised at the fix-creating call. -/
theorem relationFix_unregistered_accepted :
    (1 ∉ (({} : ImageState)).locatables.objs) ∧
    (ImageState.Relation_Fix {} 1 CanvasPart.Left 0 CanvasPart.Left 5).1.fixes
      = [FixT.relationship 1 0 CanvasPart.Left CanvasPart.Left 5] :=
  ⟨by decide, rfl⟩

/-- C9 amended: none of the four fix-creating calls validates
registration — each unconditionally appends its fix to `fixes_` and
returns it, whether or not the referenced locatables are registered; the
unregistered reference surfaces only at solve time, where
`IndexedLocatables::GetIndex` returns the registry size (an out-of-range
column-block index) instead of raising an error. -/
theorem fix_calls_never_validate (img : ImageState) (c1 c2 : ℕ) (p1 p2 : CanvasPart)
    (d1 d2 : CanvasDimension) (q : ℚ) :
    ((img.Relation_Fix c1 p1 c2 p2 q).1
        = { img with fixes := img.fixes ++ [FixT.relationship c1 c2 p1 p2 q] }) ∧
    ((img.Scale_Fix c1 p1 c2 d1 q).1
        = { img with fixes := img.fixes ++ [FixT.scale c1 c2 p1 d1 q] }) ∧
    ((img.Dimensions_Fix c1 d1 q).1
        = { img with fixes := img.fixes ++ [FixT.dimensions c1 d1 q] }) ∧
    ((img.RelativeSize_Fix c1 d1 c2 d2 q).1
        = { img with fixes := img.fixes ++ [FixT.relativeSize c1 c2 d1 d2 q] }) ∧
    (∀ locs : IndexedLocatables, ∀ p, p ∉ locs.objs → locs.GetIndex p = locs.objs.length) :=
  ⟨rfl, rfl, rfl, rfl, fun _ _ h => List.indexOf_of_not_mem h⟩

/-- C9 amended witness: concrete instantiation on the default image and
the unregistered locatable id `1`. -/
theorem fix_calls_never_validate_spot :
    ((ImageState.Relation_Fix {} 1 CanvasPart.Left 0 CanvasPart.Left 5).1
      = { ({} : ImageState) with
            fixes := [FixT.relationship 1 0 CanvasPart.Left CanvasPart.Left 5] }) ∧
    (({ objs := [0] } : IndexedLocatables).GetIndex 1 = 1) :=
  ⟨(fix_calls_never_validate {} 1 0 CanvasPart.Left CanvasPart.Left
      CanvasDimension.X CanvasDimension.X 5).1,
    (fix_calls_never_validate {} 1 0 CanvasPart.Left CanvasPart.Left
      CanvasDimension.X CanvasDimension.X 5).2.2.2.2 { objs := [0] } 1 (by decide)⟩

/-! ### C10: the depth array after direct construction -/

/-- C10: the `EasyBMPImpl(width, height)` constructor only *reserves*
capacity for `width * height` depth entries and then fills the empty
`begin()..end()` range, so the depth array of a directly constructed
bitmap holds 0 entries, not `width * height` unset entries as claimed;
the first in-bounds `SetPixel` therefore reads `zarray_[0]` out of
range.  (`setSize`, by contrast, resizes and fills correctly — shown for
contrast on the same 2×2 size.) -/
theorem ctor_zarray_empty :
    (EasyBMPImpl.ctor 2 2).zarray.length = 0 ∧
    (0 : ℕ) ≠ 2 * 2 ∧
    ((EasyBMPImpl.ctor 2 2).zAt 0 0 = none) ∧
    ((EasyBMPImpl.ctor 2 2).SetSize 2 2).zarray = List.replicate 4 none := by
  refine ⟨rfl, by decide, ?_, rfl⟩
  simp [BitmapImpl.zAt, EasyBMPImpl.ctor, stdFill, vectorReserve]

/-! ### C4: SetPermittedRegion clamping -/

/-- C4: `SetPermittedRegion` computes `pylow_ = std::min(0, ylow)` where
every neighbouring bound uses the clamping direction
(`max` against 0, `min` against width/height), so a negative `ylow` is
*not* clamped to the raster: on a 10×10 raster,
`SetPermittedRegion(0, 10, -5, 10)` stores `pylow_ = -5` and the
subsequent `SetPixel(0, -3, …)` passes the permitted-region test with a
negative `y`, producing a write outside the raster — contradicting the
claim that the stored region is clamped to `[0,width) × [0,height)`. -/
theorem setPermittedRegion_not_clamped :
    ((EasyBMPImpl.ctor 10 10).SetPermittedRegion 0 10 (-5) 10).pylow = -5 ∧
    ((EasyBMPImpl.ctor 10 10).SetPermittedRegion 0 10 (-5) 10).pylow < 0 ∧
    ((EasyBMPImpl.ctor 10 10).SetPermittedRegion 0 10 (-5) 10).permittedTest 0 (-3) = true := by
  refine ⟨rfl, by decide, by decide⟩

/-! ### C3: the depth-ordered pixel write rule -/

/-- The overwrite test holds exactly when the stored depth is unset, or
strictly below the incoming `z`, or tied with `z` under the
ties-overwrite policy. -/
theorem zOverwriteTest_eq_true (zv0 : Option ℚ) (z : ℚ) (ot : ZOverwriteType) :
    zOverwriteTest zv0 z ot = true ↔
      (zv0 = none ∨ ∃ v, zv0 = some v ∧
        (v < z ∨ (v = z ∧ ot = ZOverwriteType.GreaterOrEqual))) := by
  cases zv0 <;> simp [zOverwriteTest]

/-- A 2×1 bitmap sized through `SetSize`, so that its depth array covers
the raster; the row flip `height_ - y - 1` is the identity at height 1. -/
def demoBitmap : BitmapImpl := (EasyBMPImpl.ctor 2 1).SetSize 2 1

/-- C3: for a pixel `(x, y)` passing the permitted-region test (and whose
depth entry exists), `SetPixel(x, y, color, z)` forwards to `setPixel`,
which overwrites the stored pixel and its depth if and only if the
stored depth `zv0` is unset, or `z` is strictly greater than it, or `z`
equals it and the overwrite policy is the default ties-overwrite
(`GreaterOrEqual`); otherwise the state is unchanged.  In particular, on
a concrete bitmap: writing red at depth 1 then blue at depth 2 at the
same pixel leaves blue; writing blue at depth 2 then red at depth 1
leaves blue unchanged; and a write at an unset depth always lands. -/
theorem setPixel_depth_rule (s : BitmapImpl) (x y : ℤ) (c : PixelColor) (z : ℚ)
    (zv0 : Option ℚ)
    (hpass : s.permittedTest x y = true) (hstored : s.zAt x y = some zv0) :
    (s.SetPixel x y c z = EasyBMPImpl.setPixel s x y c z) ∧
    ((zv0 = none ∨ ∃ v, zv0 = some v ∧
        (v < z ∨ (v = z ∧ s.overwrite_type = ZOverwriteType.GreaterOrEqual))) →
      EasyBMPImpl.setPixel s x y c z =
        { s with
          bitmap := s.bitmap.SetPixel x (s.height - y - 1) c
          zarray := s.zarray.set (y * s.width + x).toNat (some z) }) ∧
    (¬ (zv0 = none ∨ ∃ v, zv0 = some v ∧
        (v < z ∨ (v = z ∧ s.overwrite_type = ZOverwriteType.GreaterOrEqual))) →
      EasyBMPImpl.setPixel s x y c z = s) ∧
    (((demoBitmap.SetPixel 0 0 ⟨255, 0, 0, 255⟩ 1).SetPixel 0 0 ⟨0, 0, 255, 255⟩ 2).bitmap.pixels 0 0
        = ⟨0, 0, 255, 255⟩) ∧
    (((demoBitmap.SetPixel 0 0 ⟨0, 0, 255, 255⟩ 2).SetPixel 0 0 ⟨255, 0, 0, 255⟩ 1).bitmap.pixels 0 0
        = ⟨0, 0, 255, 255⟩) ∧
    ((demoBitmap.SetPixel 0 0 ⟨255, 0, 0, 255⟩ 1).bitmap.pixels 0 0 = ⟨255, 0, 0, 255⟩) ∧
    ((demoBitmap.SetPixel 0 0 ⟨255, 0, 0, 255⟩ 1).zAt 0 0 = some (some 1)) := by
  have hfwd : s.SetPixel x y c z = EasyBMPImpl.setPixel s x y c z := by
    simp [BitmapImpl.SetPixel, hpass]
  refine ⟨hfwd, fun hcond => ?_, fun hcond => ?_, by decide, by decide, by decide, by decide⟩
  · have : zOverwriteTest ((s.zAt x y).getD none) z s.overwrite_type = true := by
      rw [hstored]
      exact (zOverwriteTest_eq_true zv0 z s.overwrite_type).2 hcond
    simp [EasyBMPImpl.setPixel, this]
  · have : ¬ zOverwriteTest ((s.zAt x y).getD none) z s.overwrite_type = true := by
      rw [hstored]
      exact fun h => hcond ((zOverwriteTest_eq_true zv0 z s.overwrite_type).1 h)
    simp [EasyBMPImpl.setPixel, this]

/-- C3 witness: concrete application at the sized 2×1 bitmap, pixel
`(0,0)` with unset stored depth: the write lands. -/
theorem setPixel_depth_rule_spot :
    demoBitmap.permittedTest 0 0 = true ∧
    demoBitmap.zAt 0 0 = some none ∧
    EasyBMPImpl.setPixel demoBitmap 0 0 ⟨255, 0, 0, 255⟩ 1 =
      { demoBitmap with
        bitmap := demoBitmap.bitmap.SetPixel 0 (demoBitmap.height - 0 - 1) ⟨255, 0, 0, 255⟩
        zarray := demoBitmap.zarray.set ((0 : ℤ) * demoBitmap.width + 0).toNat (some 1) } := by
  refine ⟨by decide, by decide, ?_⟩
  exact (setPixel_depth_rule demoBitmap 0 0 ⟨255, 0, 0, 255⟩ 1 none
    (by decide) (by decide)).2.1 (Or.inl rfl)

/-! ### C6: the row written by a Relationship fix -/

/-- The claim's column encoding of one canvas part inside the 4-column
block of locatable `li`: Left, Bottom, Right, Top are single columns at
offsets 0, 1, 2, 3; CenterX (resp. CenterY) contributes `1/2` to both
the Left and Right (resp. Bottom and Top) columns. -/
def partCoeff (part : CanvasPart) (li c : ℕ) : ℚ :=
  match part with
  | CanvasPart.Left => if c = 4 * li + 0 then 1 else 0
  | CanvasPart.Right => if c = 4 * li + 2 then 1 else 0
  | CanvasPart.Bottom => if c = 4 * li + 1 then 1 else 0
  | CanvasPart.Top => if c = 4 * li + 3 then 1 else 0
  | CanvasPart.CenterX => if c = 4 * li + 0 ∨ c = 4 * li + 2 then 1 / 2 else 0
  | CanvasPart.CenterY => if c = 4 * li + 1 ∨ c = 4 * li + 3 then 1 / 2 else 0

/-- Pointwise form of the `+=` update `addAt`. -/
theorem addAt_apply (m : Mat) (r0 c0 : ℕ) (v : ℚ) (r c : ℕ) :
    addAt m r0 c0 v r c = m r c + (if r = r0 ∧ c = c0 then v else 0) := by
  simp only [addAt]
  split_ifs <;> simp

/-- Pointwise effect of `AddToMatrixForCanvasPart`: it adds
`value * partCoeff part li c` into row `index` and touches no other
row. -/
theorem addToMatrix_apply (index : ℕ) (value : ℚ) (part : CanvasPart) (li : ℕ)
    (m : Mat) (r c : ℕ) :
    AddToMatrixForCanvasPart index value part li m r c
      = m r c + (if r = index then value * partCoeff part li c else 0) := by
  cases part <;> simp only [AddToMatrixForCanvasPart, partCoeff]
  case Left =>
    rw [addAt_apply]
    by_cases hr : r = index
    · subst hr
      by_cases hc : c = 4 * li + 0 <;> simp [hc]
    · simp [hr]
  case Right =>
    rw [addAt_apply]
    by_cases hr : r = index
    · subst hr
      by_cases hc : c = 4 * li + 2 <;> simp [hc]
    · simp [hr]
  case Bottom =>
    rw [addAt_apply]
    by_cases hr : r = index
    · subst hr
      by_cases hc : c = 4 * li + 1 <;> simp [hc]
    · simp [hr]
  case Top =>
    rw [addAt_apply]
    by_cases hr : r = index
    · subst hr
      by_cases hc : c = 4 * li + 3 <;> simp [hc]
    · simp [hr]
  case CenterX =>
    rw [addAt_apply, addAt_apply]
    by_cases hr : r = index
    · subst hr
      by_cases h0 : c = 4 * li + 0
      · have h2 : c ≠ 4 * li + 2 := by omega
        simp [h0, h2]
        ring
      · by_cases h2 : c = 4 * li + 2 <;> simp [h0, h2] <;> ring
    · simp [hr]
  case CenterY =>
    rw [addAt_apply, addAt_apply]
    by_cases hr : r = index
    · subst hr
      by_cases h1 : c = 4 * li + 1
      · have h3 : c ≠ 4 * li + 3 := by omega
        simp [h1, h3]
        ring
      · by_cases h3 : c = 4 * li + 3 <;> simp [h1, h3] <;> ring
    · simp [hr]

/-- C6: for any row index it is given, the `Create` of
`Relationship(A, partA, B, partB, Δ)` writes exactly one row: every
other row of the matrix and of the constants is untouched, row `index`
of the matrix gains `−1 × A.partA + 1 × B.partB` in the claim's column
encoding (CenterX/CenterY spreading `0.5` over the Left/Right resp.
Bottom/Top columns of the region's 4-column block), and the constant of
row `index` becomes `Δ`. -/
theorem fixRelationship_row (c1 c2 : ℕ) (p1 p2 : CanvasPart) (diff : ℚ)
    (index : ℕ) (m : Mat) (b : Vec) (locs : IndexedLocatables) :
    (∀ r cc, r ≠ index →
      ((FixT.relationship c1 c2 p1 p2 diff).create index m b locs).1 r cc = m r cc) ∧
    (∀ r, r ≠ index →
      ((FixT.relationship c1 c2 p1 p2 diff).create index m b locs).2 r = b r) ∧
    (∀ cc, ((FixT.relationship c1 c2 p1 p2 diff).create index m b locs).1 index cc
      = m index cc + ((-1) * partCoeff p1 (locs.GetIndex c1) cc
          + 1 * partCoeff p2 (locs.GetIndex c2) cc)) ∧
    ((FixT.relationship c1 c2 p1 p2 diff).create index m b locs).2 index = diff := by
  refine ⟨fun r cc hr => ?_, fun r hr => ?_, fun cc => ?_, ?_⟩
  · show AddToMatrixForCanvasPart index 1 p2 (locs.GetIndex c2)
      (AddToMatrixForCanvasPart index (-1) p1 (locs.GetIndex c1) m) r cc = m r cc
    rw [addToMatrix_apply, addToMatrix_apply]
    simp [hr]
  · show setC b index diff r = b r
    simp [setC, hr]
  · show AddToMatrixForCanvasPart index 1 p2 (locs.GetIndex c2)
      (AddToMatrixForCanvasPart index (-1) p1 (locs.GetIndex c1) m) index cc = _
    rw [addToMatrix_apply, addToMatrix_apply]
    simp
    ring
  · show setC b index diff index = diff
    simp [setC]

/-- C6 witness: concrete application at `Relationship(0, Left, 0, Right, 7)`
placed in row 4 of a zero system over the one-locatable registry. -/
theorem fixRelationship_row_spot :
    (((FixT.relationship 0 0 CanvasPart.Left CanvasPart.Right 7).create 4
        (fun _ _ => 0) (fun _ => 0) { objs := [0] }).1 0 0 = 0) ∧
    (((FixT.relationship 0 0 CanvasPart.Left CanvasPart.Right 7).create 4
        (fun _ _ => 0) (fun _ => 0) { objs := [0] }).2 0 = 0) ∧
    (((FixT.relationship 0 0 CanvasPart.Left CanvasPart.Right 7).create 4
        (fun _ _ => 0) (fun _ => 0) { objs := [0] }).1 4 0
      = 0 + ((-1) * partCoeff CanvasPart.Left 0 0 + 1 * partCoeff CanvasPart.Right 0 0)) ∧
    (((FixT.relationship 0 0 CanvasPart.Left CanvasPart.Right 7).create 4
        (fun _ _ => 0) (fun _ => 0) { objs := [0] }).2 4 = 7) := by
  have h := fixRelationship_row 0 0 CanvasPart.Left CanvasPart.Right 7 4
    (fun _ _ => 0) (fun _ => 0) { objs := [0] }
  exact ⟨h.1 0 0 (by decide), h.2.1 0 (by decide), h.2.2.1 0, h.2.2.2⟩

/-! ### C2: master pinning -/

/-- Any `Fix::Create` leaves every matrix row other than its own
untouched. -/
theorem create_mat_ne (f : FixT) (index : ℕ) (m : Mat) (b : Vec)
    (locs : IndexedLocatables) (r c : ℕ) (hr : r ≠ index) :
    (f.create index m b locs).1 r c = m r c := by
  cases f with
  | relationship c1 c2 p1 p2 diff =>
    simp [FixT.create, addToMatrix_apply, hr]
  | dimensions loc dim extent =>
    cases dim <;> simp [FixT.create, addToMatrix_apply, hr]
  | scale c1 c2 p1 dim lam =>
    cases dim <;> simp [FixT.create, addToMatrix_apply, hr]
  | relativeSize c1 c2 d1 d2 sc =>
    cases d1 <;> cases d2 <;> simp [FixT.create, addToMatrix_apply, hr]

/-- Any `Fix::Create` leaves every constants row other than its own
untouched. -/
theorem create_vec_ne (f : FixT) (index : ℕ) (m : Mat) (b : Vec)
    (locs : IndexedLocatables) (r : ℕ) (hr : r ≠ index) :
    (f.create index m b locs).2 r = b r := by
  cases f with
  | relationship c1 c2 p1 p2 diff =>
    simp [FixT.create, setC, hr]
  | dimensions loc dim extent =>
    cases dim <;> simp [FixT.create, setC, hr]
  | scale c1 c2 p1 dim lam =>
    cases dim <;> simp [FixT.create]
  | relativeSize c1 c2 d1 d2 sc =>
    cases d1 <;> cases d2 <;> simp [FixT.create]

/-- The implicitly generated dimension rows all live at indices `≥ 4`,
so rows 0–3 of the matrix and constants pass through unchanged. -/
theorem applyImplicitFixes_lt4 (img : ImageState) (L : List ℕ) (m : Mat) (b : Vec)
    (count : ℕ) (r : ℕ) (hr : r < 4) (c : ℕ) :
    (applyImplicitFixes img L m b count).1 r c = m r c ∧
    (applyImplicitFixes img L m b count).2.1 r = b r := by
  induction L generalizing m b count with
  | nil => exact ⟨rfl, rfl⟩
  | cons loc rest ih =>
    simp only [applyImplicitFixes]
    cases hw : img.locWidth loc with
    | none =>
      cases hh : img.locHeight loc with
      | none => exact ih m b count
      | some hgt =>
        have hne : r ≠ 4 + count := by omega
        have h1 := ih ((FixT.dimensions loc CanvasDimension.Y hgt).create (4 + count) m b img.locatables).1
          ((FixT.dimensions loc CanvasDimension.Y hgt).create (4 + count) m b img.locatables).2 (count + 1)
        exact ⟨h1.1.trans (create_mat_ne _ _ _ _ _ _ _ hne),
          h1.2.trans (create_vec_ne _ _ _ _ _ _ hne)⟩
    | some w =>
      have hnew : r ≠ 4 + count := by omega
      cases hh : img.locHeight loc with
      | none =>
        have h1 := ih ((FixT.dimensions loc CanvasDimension.X w).create (4 + count) m b img.locatables).1
          ((FixT.dimensions loc CanvasDimension.X w).create (4 + count) m b img.locatables).2 (count + 1)
        exact ⟨h1.1.trans (create_mat_ne _ _ _ _ _ _ _ hnew),
          h1.2.trans (create_vec_ne _ _ _ _ _ _ hnew)⟩
      | some hgt =>
        have hneh : r ≠ 4 + (count + 1) := by omega
        have h1 := ih
          ((FixT.dimensions loc CanvasDimension.Y hgt).create (4 + (count + 1))
            ((FixT.dimensions loc CanvasDimension.X w).create (4 + count) m b img.locatables).1
            ((FixT.dimensions loc CanvasDimension.X w).create (4 + count) m b img.locatables).2
            img.locatables).1
          ((FixT.dimensions loc CanvasDimension.Y hgt).create (4 + (count + 1))
            ((FixT.dimensions loc CanvasDimension.X w).create (4 + count) m b img.locatables).1
            ((FixT.dimensions loc CanvasDimension.X w).create (4 + count) m b img.locatables).2
            img.locatables).2
          (count + 1 + 1)
        refine ⟨h1.1.trans ?_, h1.2.trans ?_⟩
        · exact (create_mat_ne _ _ _ _ _ _ _ hneh).trans (create_mat_ne _ _ _ _ _ _ _ hnew)
        · exact (create_vec_ne _ _ _ _ _ _ hneh).trans (create_vec_ne _ _ _ _ _ _ hnew)

/-- The explicit fix rows all live at indices `≥ row`, so any row below
`row` passes through unchanged. -/
theorem applyFixList_lt (fixes : List FixT) (row : ℕ) (m : Mat) (b : Vec)
    (locs : IndexedLocatables) (r : ℕ) (hr : r < row) (c : ℕ) :
    (applyFixList fixes row m b locs).1 r c = m r c ∧
    (applyFixList fixes row m b locs).2 r = b r := by
  induction fixes generalizing row m b with
  | nil => exact ⟨rfl, rfl⟩
  | cons f rest ih =>
    simp only [applyFixList]
    have h1 := ih (row + 1) (f.create row m b locs).1 (f.create row m b locs).2 (by omega)
    exact ⟨h1.1.trans (create_mat_ne _ _ _ _ _ _ _ (by omega)),
      h1.2.trans (create_vec_ne _ _ _ _ _ _ (by omega))⟩

/-- Rows 0–3 of the assembled system are exactly the master pin:
identity coefficients on the master's 4-column block and constants
`(0, 0, width, height)`. -/
theorem buildSystem_pin_rows (img : ImageState) :
    (∀ r, r < 4 → ∀ c, (buildSystem img).1 r c = if c = r then 1 else 0) ∧
    (buildSystem img).2 0 = 0 ∧ (buildSystem img).2 1 = 0 ∧
    (buildSystem img).2 2 = (img.width : ℚ) ∧ (buildSystem img).2 3 = (img.height : ℚ) := by
  have hmat : ∀ r, r < 4 → ∀ c, (buildSystem img).1 r c
      = setAt (setAt (setAt (setAt (fun _ _ => 0) 0 0 1) 1 1 1) 2 2 1) 3 3 1 r c := by
    intro r hr c
    simp only [buildSystem]
    exact ((applyFixList_lt _ _ _ _ _ r (by omega) c).1).trans
      ((applyImplicitFixes_lt4 img _ _ _ _ r hr c).1)
  have hvec : ∀ r, r < 4 → (buildSystem img).2 r
      = setC (setC (setC (setC (fun _ => 0) 0 0) 1 0) 2 (img.width : ℚ)) 3 (img.height : ℚ) r := by
    intro r hr
    simp only [buildSystem]
    exact ((applyFixList_lt _ _ _ _ _ r (by omega) 0).2).trans
      ((applyImplicitFixes_lt4 img _ _ _ _ r hr 0).2)
  refine ⟨fun r hr c => ?_, ?_, ?_, ?_, ?_⟩
  · rw [hmat r hr c]
    interval_cases r <;> simp [setAt]
  · rw [hvec 0 (by omega)]
    simp [setC]
  · rw [hvec 1 (by omega)]
    simp [setC]
  · rw [hvec 2 (by omega)]
    simp [setC]
  · rw [hvec 3 (by omega)]
    simp [setC]

/-- Writing a key into a location map and reading it back yields the
written value. -/
theorem locGet_locSet_self (ls : LocMap) (c : ℕ) (v : CanvasLocation) :
    locGet (locSet ls c v) c = v := by
  induction ls with
  | nil => simp [locSet, locGet]
  | cons hd tl ih =>
    obtain ⟨c', v'⟩ := hd
    by_cases h : c' = c <;> simp [locSet, locGet, h, ih]

/-- C2: whenever `CalculateCanvasLocations` completes successfully, the
master region's assigned `CanvasLocation` is exactly
`(0, 0, width, height)`; and the 4 master-pinning rows always exist and
are listed first in the assembled system (rows 0–3 are the identity on
the master's column block with constants `0, 0, width, height`). -/
theorem master_location_pinned (img : ImageState) (solver : Mat → Vec → Vec) (L : LocMap)
    (hok : CalculateCanvasLocations solver img = Except.ok L) :
    locGet L img.master = { left := 0, bottom := 0, right := img.width, top := img.height } ∧
    (∀ r, r < 4 → ∀ c, (buildSystem img).1 r c = if c = r then 1 else 0) ∧
    (buildSystem img).2 0 = 0 ∧ (buildSystem img).2 1 = 0 ∧
    (buildSystem img).2 2 = (img.width : ℚ) ∧ (buildSystem img).2 3 = (img.height : ℚ) := by
  refine ⟨?_, buildSystem_pin_rows img⟩
  simp only [CalculateCanvasLocations] at hok
  split_ifs at hok with h1 h2 h3
  · cases hok
    exact locGet_locSet_self _ _ _
  · cases hok
    exact h3

/-- A trivial stand-in solver (`fullPivLu().solve` is external); used
only to instantiate witnesses. -/
def zeroSolver : Mat → Vec → Vec := fun _ _ _ => 0

/-- C2 witness: the default image (master only, no fixes) succeeds and
its master entry reads back as `(0, 0, 100, 100)`. -/
theorem master_location_pinned_spot :
    CalculateCanvasLocations zeroSolver {}
      = Except.ok [(0, { left := 0, bottom := 0, right := 100, top := 100 })] ∧
    locGet [(0, { left := 0, bottom := 0, right := 100, top := 100 })] (({} : ImageState)).master
      = { left := 0, bottom := 0, right := (100 : ℤ), top := (100 : ℤ) } :=
  ⟨rfl, (master_location_pinned {} zeroSolver _ rfl).1⟩

/-! ### C1: non-square systems -/

/-- An image whose system is non-square: the master alone (4 columns)
with one explicit `Dimensions` fix, giving `4 + 0 + 1 = 5` rows. -/
def imgNonSquare : ImageState :=
  { fixes := [FixT.dimensions 0 CanvasDimension.X 100] }

/-- The exact solution of `imgNonSquare`'s (consistent, overdetermined)
system: the master at `(0, 0, 100, 100)`. -/
def exactSolution : Vec :=
  fun i => if i = 0 then 0 else if i = 1 then 0 else if i = 2 then 100 else if i = 3 then 100 else 0

/-- A solver returning that exact solution — on a consistent system this
is what Eigen's full-pivot LU solve produces (in exact arithmetic). -/
def exactSolver : Mat → Vec → Vec := fun _ _ => exactSolution

/-- The dot product of matrix row `r` (over `cols` columns) with `x`,
used to check that a vector satisfies the assembled system row-by-row. -/
def rowDot (m : Mat) (x : Vec) (cols r : ℕ) : ℚ :=
  (List.range cols).foldl (fun acc c => acc + m r c * x c) 0

/-- C1 counterexample: a constraint set whose row count (5) differs from
its column count (4), on which `CalculateCanvasLocations` does *not*
fail: it solves the non-square system and assigns canvas locations
(`Except.ok`, master at `(0, 0, 100, 100)`).  The five row conjuncts
check that the supplied solver output satisfies every assembled row
exactly, so it is the solution an exact LU solve returns. -/
theorem nonSquare_system_still_solved :
    dimensionality imgNonSquare = 5 ∧
    numColumns imgNonSquare = 4 ∧
    dimensionality imgNonSquare ≠ numColumns imgNonSquare ∧
    CalculateCanvasLocations exactSolver imgNonSquare
      = Except.ok [(0, { left := 0, bottom := 0, right := 100, top := 100 })] ∧
    rowDot (buildSystem imgNonSquare).1 exactSolution 4 0 = (buildSystem imgNonSquare).2 0 ∧
    rowDot (buildSystem imgNonSquare).1 exactSolution 4 1 = (buildSystem imgNonSquare).2 1 ∧
    rowDot (buildSystem imgNonSquare).1 exactSolution 4 2 = (buildSystem imgNonSquare).2 2 ∧
    rowDot (buildSystem imgNonSquare).1 exactSolution 4 3 = (buildSystem imgNonSquare).2 3 ∧
    rowDot (buildSystem imgNonSquare).1 exactSolution 4 4 = (buildSystem imgNonSquare).2 4 := by
  refine ⟨rfl, rfl, by decide, rfl, ?_, ?_, ?_, ?_, ?_⟩ <;>
    simp [rowDot, buildSystem, applyImplicitFixes, applyFixList, additionalFixes, FixT.create,
      AddToMatrixForCanvasPart, addAt, setAt, setC, exactSolution, imgNonSquare,
      IndexedLocatables.GetIndex, List.range_succ]

/-- C1 amended: `CalculateCanvasLocations` performs no row/column-count
check.  For every constraint set with at least one fix whose row count
differs from the column count `4 × number_of_regions`, the call still
assembles the system, hands it to the LU solver, and assigns the
truncated solution to every canvas; it succeeds exactly when the
resulting master entry reads `(0, 0, width, height)` (the final
assert), with non-squareness itself never causing a failure. -/
theorem nonSquare_no_failure (img : ImageState) (solver : Mat → Vec → Vec)
    (hfix : img.fixes ≠ []) (_hnsq : dimensionality img ≠ numColumns img) :
    CalculateCanvasLocations solver img = Except.ok (finalLocations solver img)
      ↔ locGet (finalLocations solver img) img.master
          = { left := 0, bottom := 0, right := img.width, top := img.height } := by
  simp only [CalculateCanvasLocations]
  rw [if_neg hfix]
  by_cases h : locGet (finalLocations solver img) img.master
      = { left := 0, bottom := 0, right := img.width, top := img.height }
  · simp [h]
  · simp [h]

/-- C1 amended witness: concrete application at the 5-row/4-column
system and the exact solver. -/
theorem nonSquare_no_failure_spot :
    imgNonSquare.fixes ≠ [] ∧
    dimensionality imgNonSquare ≠ numColumns imgNonSquare ∧
    (CalculateCanvasLocations exactSolver imgNonSquare
        = Except.ok (finalLocations exactSolver imgNonSquare)
      ↔ locGet (finalLocations exactSolver imgNonSquare) imgNonSquare.master
          = { left := 0, bottom := 0, right := 100, top := 100 }) :=
  ⟨by decide, by decide,
    nonSquare_no_failure imgNonSquare exactSolver (by decide) (by decide)⟩

/-! ### C7: logical coordinate inference -/

/-- Folding another shape into a running minimum never increases it. -/
theorem foldl_stepMin_le (l : List (Option ℚ)) (a : ℚ) :
    ∃ m, l.foldl stepMin (some a) = some m ∧ m ≤ a := by
  induction l generalizing a with
  | nil => exact ⟨a, rfl, le_rfl⟩
  | cons v rest ih =>
    cases v with
    | none => exact ih a
    | some x =>
      simp only [List.foldl_cons, stepMin]
      by_cases hx : x < a
      · rw [if_pos hx]
        obtain ⟨m, hm, hle⟩ := ih x
        exact ⟨m, hm, hle.trans hx.le⟩
      · rw [if_neg hx]
        exact ih a

/-- The running minimum is a lower bound for every contributed value. -/
theorem foldl_stepMin_lower (l : List (Option ℚ)) (acc : Option ℚ) (q : ℚ)
    (hq : some q ∈ l) :
    ∃ m, l.foldl stepMin acc = some m ∧ m ≤ q := by
  induction l generalizing acc with
  | nil => cases hq
  | cons v rest ih =>
    rcases List.mem_cons.1 hq with hv | hrest
    · subst hv
      simp only [List.foldl_cons]
      cases acc with
      | none =>
        simpa [stepMin] using foldl_stepMin_le rest q
      | some a =>
        simp only [stepMin]
        by_cases hx : q < a
        · rw [if_pos hx]
          exact foldl_stepMin_le rest q
        · rw [if_neg hx]
          obtain ⟨m, hm, hle⟩ := foldl_stepMin_le rest a
          exact ⟨m, hm, hle.trans (not_lt.1 hx)⟩
    · exact ih _ hrest

/-- The running minimum, when present, is the starting value or one of
the contributed values. -/
theorem foldl_stepMin_attained (l : List (Option ℚ)) (acc : Option ℚ) (m : ℚ)
    (hm : l.foldl stepMin acc = some m) :
    acc = some m ∨ some m ∈ l := by
  induction l generalizing acc with
  | nil => exact Or.inl hm
  | cons v rest ih =>
    simp only [List.foldl_cons] at hm
    rcases ih _ hm with hacc | hmem
    · cases v with
      | none => exact Or.inl (by simpa [stepMin] using hacc)
      | some x =>
        cases acc with
        | none =>
          simp only [stepMin] at hacc
          exact Or.inr (List.mem_cons.2 (Or.inl (by rw [hacc])))
        | some a =>
          simp only [stepMin] at hacc
          by_cases hx : x < a
          · rw [if_pos hx] at hacc
            exact Or.inr (List.mem_cons.2 (Or.inl (by rw [hacc])))
          · rw [if_neg hx] at hacc
            exact Or.inl hacc
    · exact Or.inr (List.mem_cons.2 (Or.inr hmem))

/-- Folding another shape into a running maximum never decreases it. -/
theorem foldl_stepMax_ge (l : List (Option ℚ)) (a : ℚ) :
    ∃ m, l.foldl stepMax (some a) = some m ∧ a ≤ m := by
  induction l generalizing a with
  | nil => exact ⟨a, rfl, le_rfl⟩
  | cons v rest ih =>
    cases v with
    | none => exact ih a
    | some x =>
      simp only [List.foldl_cons, stepMax]
      by_cases hx : a < x
      · rw [if_pos hx]
        obtain ⟨m, hm, hle⟩ := ih x
        exact ⟨m, hm, hx.le.trans hle⟩
      · rw [if_neg hx]
        exact ih a

/-- The running maximum is an upper bound for every contributed value. -/
theorem foldl_stepMax_upper (l : List (Option ℚ)) (acc : Option ℚ) (q : ℚ)
    (hq : some q ∈ l) :
    ∃ m, l.foldl stepMax acc = some m ∧ q ≤ m := by
  induction l generalizing acc with
  | nil => cases hq
  | cons v rest ih =>
    rcases List.mem_cons.1 hq with hv | hrest
    · subst hv
      simp only [List.foldl_cons]
      cases acc with
      | none =>
        simpa [stepMax] using foldl_stepMax_ge rest q
      | some a =>
        simp only [stepMax]
        by_cases hx : a < q
        · rw [if_pos hx]
          exact foldl_stepMax_ge rest q
        · rw [if_neg hx]
          obtain ⟨m, hm, hle⟩ := foldl_stepMax_ge rest a
          exact ⟨m, hm, (not_lt.1 hx).trans hle⟩
    · exact ih _ hrest

/-- The running maximum, when present, is the starting value or one of
the contributed values. -/
theorem foldl_stepMax_attained (l : List (Option ℚ)) (acc : Option ℚ) (m : ℚ)
    (hm : l.foldl stepMax acc = some m) :
    acc = some m ∨ some m ∈ l := by
  induction l generalizing acc with
  | nil => exact Or.inl hm
  | cons v rest ih =>
    simp only [List.foldl_cons] at hm
    rcases ih _ hm with hacc | hmem
    · cases v with
      | none => exact Or.inl (by simpa [stepMax] using hacc)
      | some x =>
        cases acc with
        | none =>
          simp only [stepMax] at hacc
          exact Or.inr (List.mem_cons.2 (Or.inl (by rw [hacc])))
        | some a =>
          simp only [stepMax] at hacc
          by_cases hx : a < x
          · rw [if_pos hx] at hacc
            exact Or.inr (List.mem_cons.2 (Or.inl (by rw [hacc])))
          · rw [if_neg hx] at hacc
            exact Or.inl hacc
    · exact Or.inr (List.mem_cons.2 (Or.inr hmem))

/-- The structure fold projects to the four scalar folds. -/
theorem foldl_mmStep_project (shapes : List BoundingBox) (acc : MinMaxCoords) :
    (shapes.foldl mmStep acc).minX = shapes.foldl (fun a bb => stepMin a bb.minX) acc.minX ∧
    (shapes.foldl mmStep acc).maxX = shapes.foldl (fun a bb => stepMax a bb.maxX) acc.maxX ∧
    (shapes.foldl mmStep acc).minY = shapes.foldl (fun a bb => stepMin a bb.minY) acc.minY ∧
    (shapes.foldl mmStep acc).maxY = shapes.foldl (fun a bb => stepMax a bb.maxY) acc.maxY := by
  induction shapes generalizing acc with
  | nil => exact ⟨rfl, rfl, rfl, rfl⟩
  | cons bb rest ih => simpa [mmStep] using ih (mmStep acc bb)

/-- The amended claim's minimum-bound rule: an explicit bound wins; with
no observed minimum on the axis the bound defaults to `−ε`; with the
observed minimum equal to the observed maximum it becomes `v − ε`;
otherwise it is the observed minimum. -/
def inferredMinBound (eps : ℚ) (explicit mn mx : Option ℚ) : Option ℚ :=
  match explicit with
  | some e => some e
  | none =>
    match mn with
    | none => some (-eps)
    | some v => if mx = some v then some (v - eps) else some v

/-- The amended claim's maximum-bound rule: an explicit bound wins; with
no observed minimum on the axis the bound defaults to `+ε`; with the
observed minimum equal to the observed maximum it becomes `v + ε`;
otherwise it is the observed maximum (left unset when no shape
contributed a maximum). -/
def inferredMaxBound (eps : ℚ) (explicit mn mx : Option ℚ) : Option ℚ :=
  match explicit with
  | some e => some e
  | none =>
    match mn with
    | none => some eps
    | some v => if mx = some v then some (v + eps) else mx

/-- C7 counterexample: for a region with no shapes (and no explicit
bounds), `describeCoordinates` leaves the coordinate description
entirely untouched — the left bound stays unset (NaN) instead of
defaulting to `−ε` as the claim requires. -/
theorem describe_no_shapes_leaves_unset :
    describeCoordinates default_coordinate_epsilon {} (getMinMaxCoordinates [])
      = ({} : CoordinateDescription) ∧
    (describeCoordinates default_coordinate_epsilon {} (getMinMaxCoordinates [])).left = none ∧
    (describeCoordinates default_coordinate_epsilon {} (getMinMaxCoordinates [])).left
      ≠ some (-default_coordinate_epsilon) :=
  ⟨rfl, rfl, by decide⟩

/-- C7 amended: the coordinate scan runs only when the running minimum
of at least one axis is present (with both absent the description is
left untouched, `has_coordinates` included).  When it runs: an
explicitly set bound is never overwritten; each of the four bounds
otherwise follows the claim's case split, with the per-axis
"no contribution" test reading the *min* side of that axis (so the max
bound defaults to `+ε` whenever the min is absent, and in the
"observed extreme" case the max bound is the observed maximum, which
stays unset if no shape contributed one).  The trailing conjuncts state
that the folded values are the true observed extremes: each present
min/max is a bound for every shape's contribution on that axis and is
attained by some shape. -/
theorem describeCoordinates_inference (eps : ℚ) (cs : CoordinateDescription)
    (shapes : List BoundingBox)
    (hgate : (getMinMaxCoordinates shapes).minX.isSome
      ∨ (getMinMaxCoordinates shapes).minY.isSome) :
    (describeCoordinates eps cs (getMinMaxCoordinates shapes)).has_coordinates = true ∧
    (describeCoordinates eps cs (getMinMaxCoordinates shapes)).left
      = inferredMinBound eps cs.left (getMinMaxCoordinates shapes).minX
          (getMinMaxCoordinates shapes).maxX ∧
    (describeCoordinates eps cs (getMinMaxCoordinates shapes)).right
      = inferredMaxBound eps cs.right (getMinMaxCoordinates shapes).minX
          (getMinMaxCoordinates shapes).maxX ∧
    (describeCoordinates eps cs (getMinMaxCoordinates shapes)).bottom
      = inferredMinBound eps cs.bottom (getMinMaxCoordinates shapes).minY
          (getMinMaxCoordinates shapes).maxY ∧
    (describeCoordinates eps cs (getMinMaxCoordinates shapes)).top
      = inferredMaxBound eps cs.top (getMinMaxCoordinates shapes).minY
          (getMinMaxCoordinates shapes).maxY ∧
    (∀ bb ∈ shapes, ∀ v : ℚ, bb.minX = some v →
      ∃ m, (getMinMaxCoordinates shapes).minX = some m ∧ m ≤ v) ∧
    (∀ m : ℚ, (getMinMaxCoordinates shapes).minX = some m →
      ∃ bb ∈ shapes, bb.minX = some m) ∧
    (∀ bb ∈ shapes, ∀ v : ℚ, bb.maxX = some v →
      ∃ m, (getMinMaxCoordinates shapes).maxX = some m ∧ v ≤ m) ∧
    (∀ m : ℚ, (getMinMaxCoordinates shapes).maxX = some m →
      ∃ bb ∈ shapes, bb.maxX = some m) ∧
    (∀ bb ∈ shapes, ∀ v : ℚ, bb.minY = some v →
      ∃ m, (getMinMaxCoordinates shapes).minY = some m ∧ m ≤ v) ∧
    (∀ m : ℚ, (getMinMaxCoordinates shapes).minY = some m →
      ∃ bb ∈ shapes, bb.minY = some m) ∧
    (∀ bb ∈ shapes, ∀ v : ℚ, bb.maxY = some v →
      ∃ m, (getMinMaxCoordinates shapes).maxY = some m ∧ v ≤ m) ∧
    (∀ m : ℚ, (getMinMaxCoordinates shapes).maxY = some m →
      ∃ bb ∈ shapes, bb.maxY = some m) := by
  have hcond : ((getMinMaxCoordinates shapes).minX.isSome
      || (getMinMaxCoordinates shapes).minY.isSome) = true := by
    rcases hgate with h | h <;> simp [h]
  have hminX : (getMinMaxCoordinates shapes).minX
      = (shapes.map BoundingBox.minX).foldl stepMin none := by
    rw [getMinMaxCoordinates, (foldl_mmStep_project shapes {}).1, ← List.foldl_map]
  have hmaxX : (getMinMaxCoordinates shapes).maxX
      = (shapes.map BoundingBox.maxX).foldl stepMax none := by
    rw [getMinMaxCoordinates, (foldl_mmStep_project shapes {}).2.1, ← List.foldl_map]
  have hminY : (getMinMaxCoordinates shapes).minY
      = (shapes.map BoundingBox.minY).foldl stepMin none := by
    rw [getMinMaxCoordinates, (foldl_mmStep_project shapes {}).2.2.1, ← List.foldl_map]
  have hmaxY : (getMinMaxCoordinates shapes).maxY
      = (shapes.map BoundingBox.maxY).foldl stepMax none := by
    rw [getMinMaxCoordinates, (foldl_mmStep_project shapes {}).2.2.2, ← List.foldl_map]
  refine ⟨?_, ?_, ?_, ?_, ?_, ?_, ?_, ?_, ?_, ?_, ?_, ?_, ?_⟩
  · simp only [describeCoordinates, hcond, if_true]
    cases hL : cs.left <;> cases hR : cs.right <;> cases hB : cs.bottom <;> cases hT : cs.top <;>
      simp [hL, hR, hB, hT]
  · simp only [describeCoordinates, hcond, if_true, inferredMinBound]
    cases hL : cs.left <;> cases hR : cs.right <;> cases hB : cs.bottom <;> cases hT : cs.top <;>
      simp [hL, hR, hB, hT]
  · simp only [describeCoordinates, hcond, if_true, inferredMaxBound]
    cases hL : cs.left <;> cases hR : cs.right <;> cases hB : cs.bottom <;> cases hT : cs.top <;>
      simp [hL, hR, hB, hT]
  · simp only [describeCoordinates, hcond, if_true, inferredMinBound]
    cases hL : cs.left <;> cases hR : cs.right <;> cases hB : cs.bottom <;> cases hT : cs.top <;>
      simp [hL, hR, hB, hT]
  · simp only [describeCoordinates, hcond, if_true, inferredMaxBound]
    cases hL : cs.left <;> cases hR : cs.right <;> cases hB : cs.bottom <;> cases hT : cs.top <;>
      simp [hL, hR, hB, hT]
  · intro bb hbb v hv
    rw [hminX]
    exact foldl_stepMin_lower _ _ v (List.mem_map.2 ⟨bb, hbb, hv⟩)
  · intro m hm
    rw [hminX] at hm
    rcases foldl_stepMin_attained _ _ _ hm with h | h
    · exact absurd h (by simp)
    · exact List.mem_map.1 h
  · intro bb hbb v hv
    rw [hmaxX]
    exact foldl_stepMax_upper _ _ v (List.mem_map.2 ⟨bb, hbb, hv⟩)
  · intro m hm
    rw [hmaxX] at hm
    rcases foldl_stepMax_attained _ _ _ hm with h | h
    · exact absurd h (by simp)
    · exact List.mem_map.1 h
  · intro bb hbb v hv
    rw [hminY]
    exact foldl_stepMin_lower _ _ v (List.mem_map.2 ⟨bb, hbb, hv⟩)
  · intro m hm
    rw [hminY] at hm
    rcases foldl_stepMin_attained _ _ _ hm with h | h
    · exact absurd h (by simp)
    · exact List.mem_map.1 h
  · intro bb hbb v hv
    rw [hmaxY]
    exact foldl_stepMax_upper _ _ v (List.mem_map.2 ⟨bb, hbb, hv⟩)
  · intro m hm
    rw [hmaxY] at hm
    rcases foldl_stepMax_attained _ _ _ hm with h | h
    · exact absurd h (by simp)
    · exact List.mem_map.1 h

/-- A single shape whose bounding box spans `[3, 7]` in x, used to
instantiate the coordinate-inference theorem. -/
def demoShapes : List BoundingBox := [{ minX := some 3, maxX := some 7 }]

/-- C7 amended witness: concrete application at a one-shape region with
no explicit bounds; the gate holds because the x-axis minimum (3) is
present. -/
theorem describeCoordinates_inference_spot :
    ((getMinMaxCoordinates demoShapes).minX.isSome
      ∨ (getMinMaxCoordinates demoShapes).minY.isSome) ∧
    (describeCoordinates default_coordinate_epsilon {} (getMinMaxCoordinates demoShapes)).left
      = inferredMinBound default_coordinate_epsilon none
          (getMinMaxCoordinates demoShapes).minX (getMinMaxCoordinates demoShapes).maxX :=
  ⟨Or.inl (by decide),
    (describeCoordinates_inference default_coordinate_epsilon {} demoShapes
      (Or.inl (by decide))).2.1⟩

end Gemini
